import Mathlib

/-!
Shallow embedding of the core of the Refract Sketch plugin (script.js): a
naming-convention-driven light/dark variant switcher over a tree of layers.

The source manipulates JavaScript strings and a host document object.  We model

* JS strings by Lean `String` (a list of characters in this toolchain), with
  the JS operations `split` / `join` / `toLowerCase` / `trim` /
  `charAt(0).toUpperCase() + slice(1)` implemented structurally so that they
  evaluate inside the kernel;
* a layer (`Node`) by its class tag (`MSTextLayer` / `MSSymbolInstance` /
  other), its applied shared-style name, its symbol-master name, an optional
  fault-injection site modelling a host API call that throws at that node, and
  its list of children;
* the document by its three name catalogs (shared text styles, shared layer
  styles, symbol masters); resolution in the source compares names with `===`
  and reassignment installs the resolved catalog entry, so entries are
  represented by their names;
* each `try/catch` of the source by an explicit test of the node's fault site:
  a fault at a site makes the smallest enclosing `catch` of the source fire,
  with exactly the effect the source's handler has.
-/

namespace Refract

/-! ### JS string primitives -/

/-- JS `String.prototype.split` with a one-character separator, on the
character list of a string.  `"".split(sep)` is `[""]`, matching JS. -/
def splitChars (sep : Char) : List Char → List (List Char)
  | [] => [[]]
  | c :: cs =>
    if c = sep then [] :: splitChars sep cs
    else
      match splitChars sep cs with
      | [] => [[c]]
      | g :: gs => (c :: g) :: gs

/-- JS `String.prototype.split` with a one-character separator. -/
def jsSplit (sep : Char) (s : String) : List String :=
  (splitChars sep s.data).map String.mk

/-- JS `Array.prototype.join` with a one-character separator, on character
lists. -/
def joinChars (sep : Char) : List (List Char) → List Char
  | [] => []
  | [g] => g
  | g :: gs => g ++ sep :: joinChars sep gs

/-- JS `Array.prototype.join` with a one-character separator. -/
def jsJoin (sep : Char) (l : List String) : String :=
  String.mk (joinChars sep (l.map String.data))

/-- The whitespace characters stripped by JS `String.prototype.trim` that can
occur in layer names. -/
def isJsSpace (c : Char) : Bool :=
  c = ' ' || c = '\t' || c = '\n' || c = '\r'

/-- JS `String.prototype.trim`. -/
def jsTrim (s : String) : String :=
  String.mk (((s.data.dropWhile isJsSpace).reverse.dropWhile isJsSpace).reverse)

/-- JS `String.prototype.toLowerCase` (ASCII, which covers the mode tokens). -/
def jsToLower (s : String) : String :=
  String.mk (s.data.map Char.toLower)

/-- JS `s.charAt(0).toUpperCase() + s.slice(1)`, as used for the report
string. -/
def jsCapitalize (s : String) : String :=
  match s.data with
  | [] => ""
  | c :: cs => String.mk (c.toUpper :: cs)

/-! ### Constants (script.js lines 11-16) -/

/-- Constant MODES.LIGHT (script.js line 12). -/
def MODES_LIGHT : String := "light"

/-- Constant MODES.DARK (script.js line 13). -/
def MODES_DARK : String := "dark"

/-- Constant NAMING_SEPARATOR (script.js line 16) — a one-character string in
the source, modelled as the character it consists of. -/
def NAMING_SEPARATOR : Char := '/'

/-! ### NameCodec (script.js `detectCurrentMode`, `buildTargetName`)

`detectCurrentMode` receives an object with a `name()` accessor built from a
string already in hand, so it is a pure function of that string and its
`try/catch` can never fire. -/

/-- Function detectCurrentMode (script.js lines 682-699): split the name on the
separator; with at least two segments, the second segment lower-cased and
trimmed is tested against the two mode tokens; otherwise `null`. -/
def detectCurrentMode (name : String) : Option String :=
  match jsSplit NAMING_SEPARATOR name with
  | _ :: second :: _ =>
    let modePart := jsTrim (jsToLower second)
    if modePart = MODES_LIGHT ∨ modePart = MODES_DARK then some modePart else none
  | _ => none

/-- Function buildTargetName (script.js lines 707-721): split the name on the
separator; with at least two segments, replace the second segment by the
target mode verbatim and rejoin; otherwise return the name unchanged. -/
def buildTargetName (currentName targetMode : String) : String :=
  match jsSplit NAMING_SEPARATOR currentName with
  | first :: _ :: rest => jsJoin NAMING_SEPARATOR (first :: targetMode :: rest)
  | _ => currentName

/-! ### Data model -/

/-- The host class of a layer, as inspected by `layer.class()`. -/
inductive LayerClass where
  | msTextLayer
  | msSymbolInstance
  | msOther
deriving DecidableEq, Repr

/-- A host API call site at which fault injection is modelled.  A node carries
at most one faulting site; every other collaborator call at the node succeeds.

* `atLog` — the `layer.name()` / `layer.class()` calls in the logging line at
  the top of `processCurrentLayer`'s `try` block (script.js lines 172-175);
* `atStyle` — a call inside `switchLayerStyle`'s `try` block;
* `atSymbol` — a call inside `switchSymbolMode`'s `try` block;
* `atChildren` — the `layer.layers()` access in `processLayer`'s `try` block
  after the current layer was processed. -/
inductive FaultSite where
  | atLog
  | atStyle
  | atSymbol
  | atChildren
deriving DecidableEq, Repr

/-- The per-layer state inspected and mutated by the switch engine: name, host
class, applied shared-style name (`sharedStyle` of the DOM wrapper),
symbol-master name (`symbolMaster()`), and optional fault-injection site. -/
structure LayerState where
  name : String
  cls : LayerClass
  sharedStyle : Option String
  symbolMaster : Option String
  fault : Option FaultSite
deriving DecidableEq, Repr

/-- Reassigning `layer.sharedStyle` (and with it the layer's direct style
properties, which we do not track further). -/
def LayerState.setSharedStyle (s : LayerState) (v : Option String) : LayerState :=
  ⟨s.name, s.cls, v, s.symbolMaster, s.fault⟩

/-- Mutation changeInstanceToSymbol: repointing the instance's symbol reference.  The
override blob is captured and re-applied by the source; it is opaque to the
switch decision and not tracked. -/
def LayerState.setSymbolMaster (s : LayerState) (v : Option String) : LayerState :=
  ⟨s.name, s.cls, s.sharedStyle, v, s.fault⟩

/-- A layer of the document tree: its state plus its children (`layers()`). -/
inductive Node where
  | mk : LayerState → List Node → Node

def Node.state : Node → LayerState
  | .mk s _ => s

def Node.children : Node → List Node
  | .mk _ ch => ch

/-- The document's three name catalogs. -/
structure Document where
  sharedTextStyles : List String
  sharedLayerStyles : List String
  allSymbols : List String
deriving DecidableEq, Repr

/-- The `{switched, skipped}` result object. -/
structure Tally where
  switched : Nat
  skipped : Nat
deriving DecidableEq, Repr

instance : Add Tally :=
  ⟨fun a b => ⟨a.switched + b.switched, a.skipped + b.skipped⟩⟩

/-! ### ResourceIndex (script.js `findSymbolByName`; the style lookups are the
inline `document.sharedTextStyles.find(...)` / `document.sharedLayerStyles.find(...)`
calls inside `switchLayerStyle`).  All compare names with `===` and return the
first match in catalog order. -/

/-- Function findSymbolByName (script.js lines 729-745). -/
def findSymbolByName (doc : Document) (symbolName : String) : Option String :=
  doc.allSymbols.find? (fun s => s == symbolName)

/-! ### SwitchEngine -/

/-- The dynamic symbol-instance test of script.js lines 184-187:
`layer.class() === MSSymbolInstance || class name matches ||
(layer.symbolMaster && layer.symbolMaster())`. -/
def isSymbolInstance (layer : LayerState) : Bool :=
  layer.cls == LayerClass.msSymbolInstance || layer.symbolMaster.isSome

/-- Function switchSymbolMode (script.js lines 216-287).  A fault inside the `try`
block is caught by the handler at lines 281-284, which records one skip. -/
def switchSymbolMode (doc : Document) (symbolInstance : LayerState) (targetMode : String) :
    LayerState × Tally :=
  if symbolInstance.fault = some FaultSite.atSymbol then (symbolInstance, ⟨0, 1⟩)
  else
    match symbolInstance.symbolMaster with
    | none => (symbolInstance, ⟨0, 0⟩)
    | some currentName =>
      let currentMode := detectCurrentMode currentName
      if currentMode = some targetMode then (symbolInstance, ⟨0, 1⟩)
      else
        let targetSymbolName := buildTargetName currentName targetMode
        match findSymbolByName doc targetSymbolName with
        | some targetSymbol =>
          (symbolInstance.setSymbolMaster (some targetSymbol), ⟨1, 0⟩)
        | none => (symbolInstance, ⟨0, 1⟩)

/-- Function switchLayerStyle (script.js lines 295-489).  Text layers use the shared
text-style catalog and every other layer the shared layer-style catalog; in
both branches an applied style whose decoded mode differs from the target is
re-resolved under the synthesized name and reassigned, any other situation
(already in the target mode, no decodable mode, no applied style, target
missing from the catalog) records one skip.  A fault inside the `try` block is
caught at lines 483-486, recording one skip. -/
def switchLayerStyle (doc : Document) (layer : LayerState) (targetMode : String) :
    LayerState × Tally :=
  if layer.fault = some FaultSite.atStyle then (layer, ⟨0, 1⟩)
  else if layer.cls = LayerClass.msTextLayer then
    match layer.sharedStyle with
    | some currentName =>
      match detectCurrentMode currentName with
      | some currentMode =>
        if currentMode ≠ targetMode then
          let targetStyleName := buildTargetName currentName targetMode
          match doc.sharedTextStyles.find? (fun style => style == targetStyleName) with
          | some targetStyle => (layer.setSharedStyle (some targetStyle), ⟨1, 0⟩)
          | none => (layer, ⟨0, 1⟩)
        else (layer, ⟨0, 1⟩)
      | none => (layer, ⟨0, 1⟩)
    | none => (layer, ⟨0, 1⟩)
  else
    match layer.sharedStyle with
    | some currentName =>
      match detectCurrentMode currentName with
      | some currentMode =>
        if currentMode ≠ targetMode then
          let targetStyleName := buildTargetName currentName targetMode
          match doc.sharedLayerStyles.find? (fun style => style == targetStyleName) with
          | some targetStyle => (layer.setSharedStyle (some targetStyle), ⟨1, 0⟩)
          | none => (layer, ⟨0, 1⟩)
        else (layer, ⟨0, 1⟩)
      | none => (layer, ⟨0, 1⟩)
    | none => (layer, ⟨0, 1⟩)

/-- Function processCurrentLayer (script.js lines 168-208): the style path first,
then — only if no style switch happened and the layer passes the
symbol-instance test — the symbol path, adding both tallies.  A fault at the
initial logging line is caught by the handler at lines 199-204 before either
path ran, leaving the zero-initialised result. -/
def processCurrentLayer (doc : Document) (layer : LayerState) (targetMode : String) :
    LayerState × Tally :=
  if layer.fault = some FaultSite.atLog then (layer, ⟨0, 0⟩)
  else
    let styleResult := switchLayerStyle doc layer targetMode
    if styleResult.2.switched = 0 then
      if isSymbolInstance styleResult.1 then
        let symbolResult := switchSymbolMode doc styleResult.1 targetMode
        (symbolResult.1, styleResult.2 + symbolResult.2)
      else styleResult
    else styleResult

/-! ### TreeWalker -/

mutual

/-- Function processLayer (script.js lines 134-160): process the current layer, then
recurse into its children, summing tallies.  A fault at the `layer.layers()`
access is caught by the handler at lines 153-157, keeping the tally
accumulated so far and abandoning only this node's descendants. -/
def processLayer (doc : Document) (targetMode : String) : Node → Node × Tally
  | .mk st ch =>
    let r := processCurrentLayer doc st targetMode
    if st.fault = some FaultSite.atChildren then (.mk r.1 ch, r.2)
    else
      let rc := processLayers doc targetMode ch
      (.mk r.1 rc.1, r.2 + rc.2)

/-- The child loop of `processLayer` (script.js lines 144-151), and likewise
the selection loop of `switchMode` (lines 108-113). -/
def processLayers (doc : Document) (targetMode : String) : List Node → List Node × Tally
  | [] => ([], ⟨0, 0⟩)
  | layer :: rest =>
    let r := processLayer doc targetMode layer
    let rs := processLayers doc targetMode rest
    (r.1 :: rs.1, r.2 + rs.2)

end

/-! ### Entry points -/

/-- Function switchMode (script.js lines 95-126): empty selection short-circuits with
the fixed message; otherwise every selected layer is processed and the
aggregate is reported as
`Switched to {ModeText} Mode: {N} changed, {M} skipped`. -/
def switchMode (doc : Document) (selection : List Node) (targetMode : String) :
    List Node × String :=
  if selection.length = 0 then (selection, "Please select layers to switch modes")
  else
    let r := processLayers doc targetMode selection
    let modeText := jsCapitalize targetMode
    (r.1, "Switched to " ++ modeText ++ " Mode: " ++ toString r.2.switched ++
      " changed, " ++ toString r.2.skipped ++ " skipped")

/-- Entry point switchToDark (script.js lines 26-28). -/
def switchToDark (doc : Document) (selection : List Node) : List Node × String :=
  switchMode doc selection MODES_DARK

/-- Entry point switchToLight (script.js lines 34-36). -/
def switchToLight (doc : Document) (selection : List Node) : List Node × String :=
  switchMode doc selection MODES_LIGHT

/-! ### ModeResolver (script.js `findModeInLayer`)

The source's second check resolves `layer.style().sharedObjectID` through the
document's layer-style catalog to the applied style's name; the model carries
that name directly in `sharedStyle`, so both the text-style check and the
layer-style check decode `sharedStyle`. -/

mutual

/-- Function findModeInLayer (script.js lines 601-675): applied text style, then
applied layer style, then symbol master, then the children in order. -/
def findModeInLayer : Node → Option String
  | .mk st ch =>
    let textStyleMode : Option String :=
      if st.cls = LayerClass.msTextLayer then
        match st.sharedStyle with
        | some styleName => detectCurrentMode styleName
        | none => none
      else none
    match textStyleMode with
    | some mode => some mode
    | none =>
      let layerStyleMode : Option String :=
        match st.sharedStyle with
        | some styleName => detectCurrentMode styleName
        | none => none
      match layerStyleMode with
      | some mode => some mode
      | none =>
        let symbolMode : Option String :=
          if st.cls = LayerClass.msSymbolInstance ∨ st.symbolMaster.isSome then
            match st.symbolMaster with
            | some symbolName => detectCurrentMode symbolName
            | none => none
          else none
        match symbolMode with
        | some mode => some mode
        | none => findModeInLayersList ch

/-- The recursive child search of `findModeInLayer` (script.js lines 659-668). -/
def findModeInLayersList : List Node → Option String
  | [] => none
  | child :: rest =>
    match findModeInLayer child with
    | some mode => some mode
    | none => findModeInLayersList rest

end

/-- The scan of `toggleMode` over the selection (script.js lines 50-58): the
first layer whose subtree yields a mode wins. -/
def findModeInSelection : List Node → Option String
  | [] => none
  | layer :: rest =>
    match findModeInLayer layer with
    | some mode => some mode
    | none => findModeInSelection rest

/-- The target-mode computation of `toggleMode` (script.js lines 63-64),
verbatim: `detectedMode === MODES.LIGHT ? MODES.DARK : MODES.DARK`. -/
def toggleTargetMode (selection : List Node) : String :=
  let detectedMode := findModeInSelection selection
  if detectedMode = some MODES_LIGHT then MODES_DARK else MODES_DARK

/-- Entry point toggleMode (script.js lines 42-68): empty selection short-circuits with
its own message; otherwise the detected mode picks the target and `switchMode`
runs. -/
def toggleMode (doc : Document) (selection : List Node) : List Node × String :=
  if selection.length = 0 then (selection, "Please select layers to toggle")
  else switchMode doc selection (toggleTargetMode selection)

/-! Specification-worded contracts used as refinement targets. -/

/-- The decode contract stated in the spec's own words (segment list, second
segment lower-cased and trimmed, closed mode set): the refinement target for
C8, to be compared with the source-translated detectCurrentMode. -/
def decodeSpecMode (name : String) : Option String :=
  ((jsSplit NAMING_SEPARATOR name)[1]?).bind fun seg =>
    let m := jsTrim (jsToLower seg)
    if m = MODES_LIGHT ∨ m = MODES_DARK then some m else none

/-- The encode contract stated in the spec's own words (replace the second
segment when there are at least two, rejoin with the same separator,
otherwise the name unchanged): the refinement target for C9. -/
def encodeSpec (name targetMode : String) : String :=
  let parts := jsSplit NAMING_SEPARATOR name
  if 2 ≤ parts.length then jsJoin NAMING_SEPARATOR (parts.set 1 targetMode) else name

/-- The catalog consulted by the style path, selected by the host class
exactly as the two branches of switchLayerStyle do. -/
def styleCatalog (doc : Document) (layer : LayerState) : List String :=
  if layer.cls = LayerClass.msTextLayer then doc.sharedTextStyles else doc.sharedLayerStyles

mutual

/-- Well-formedness for the idempotence property: no node carries both an
applied shared style and a symbol reference, every referenced symbol master
name round-trips through the codec (it has at least two segments), and no
host fault is injected. -/
def OkTree : Node → Prop
  | .mk st ch =>
    (st.sharedStyle = none ∨ st.symbolMaster = none) ∧
    (∀ m, st.symbolMaster = some m →
      detectCurrentMode (buildTargetName m MODES_DARK) = some MODES_DARK) ∧
    st.fault = none ∧ OkForest ch

def OkForest : List Node → Prop
  | [] => True
  | n :: ns => OkTree n ∧ OkForest ns

end

/-! Theorems. -/

theorem Tally.add_def (a b : Tally) :
    a + b = ⟨a.switched + b.switched, a.skipped + b.skipped⟩ := rfl

/-- splitChars never returns the empty list. -/
theorem splitChars_ne_nil (sep : Char) (l : List Char) : splitChars sep l ≠ [] := by
  induction l with
  | nil => simp [splitChars]
  | cons c cs ih =>
    simp only [splitChars]
    split
    · simp
    · split <;> simp

/-- Pieces produced by splitChars do not contain the separator. -/
theorem not_mem_of_mem_splitChars (sep : Char) (l g : List Char)
    (hg : g ∈ splitChars sep l) : sep ∉ g := by
  induction l generalizing g with
  | nil =>
    simp [splitChars] at hg
    simp [hg]
  | cons c cs ih =>
    simp only [splitChars] at hg
    by_cases hc : c = sep
    · rw [if_pos hc] at hg
      rcases List.mem_cons.1 hg with h | h
      · simp [h]
      · exact ih g h
    · rw [if_neg hc] at hg
      rcases hsp : splitChars sep cs with _ | ⟨g0, gs⟩
      · exact absurd hsp (splitChars_ne_nil sep cs)
      · rw [hsp] at hg
        rcases List.mem_cons.1 hg with h | h
        · subst h
          intro hmem
          rcases List.mem_cons.1 hmem with h | h
          · exact hc h.symm
          · exact ih g0 (by simp [hsp]) h
        · exact ih g (by simp [hsp, h])

/-- A separator-free character list splits to the singleton. -/
theorem splitChars_of_not_mem (sep : Char) (l : List Char) (h : sep ∉ l) :
    splitChars sep l = [l] := by
  induction l with
  | nil => simp [splitChars]
  | cons c cs ih =>
    simp only [List.mem_cons, not_or] at h
    have hcs : ¬ c = sep := fun hh => h.1 hh.symm
    simp only [splitChars, if_neg hcs, ih h.2]

theorem splitChars_append_sep (sep : Char) (xs ys : List Char) (h : sep ∉ xs) :
    splitChars sep (xs ++ sep :: ys) = xs :: splitChars sep ys := by
  induction xs with
  | nil => simp [splitChars]
  | cons c cs ih =>
    simp only [List.mem_cons, not_or] at h
    have hcs : ¬ c = sep := fun hh => h.1 hh.symm
    simp only [List.cons_append, splitChars, if_neg hcs, List.append_eq, ih h.2]

/-- Joining separator-free pieces and splitting again restores the pieces. -/
theorem splitChars_joinChars (sep : Char) (gs : List (List Char)) (hne : gs ≠ [])
    (h : ∀ g ∈ gs, sep ∉ g) : splitChars sep (joinChars sep gs) = gs := by
  induction gs with
  | nil => exact absurd rfl hne
  | cons g gs' ih =>
    cases gs' with
    | nil =>
      simp only [joinChars]
      exact splitChars_of_not_mem sep g (h g (by simp))
    | cons g' gs'' =>
      have hjoin : joinChars sep (g :: g' :: gs'') = g ++ sep :: joinChars sep (g' :: gs'') := rfl
      rw [hjoin, splitChars_append_sep sep g _ (h g (by simp)),
        ih (by simp) (fun x hx => h x (List.mem_cons_of_mem g hx))]

theorem jsSplit_jsJoin (sep : Char) (l : List String) (hne : l ≠ [])
    (h : ∀ s ∈ l, sep ∉ s.data) : jsSplit sep (jsJoin sep l) = l := by
  unfold jsSplit jsJoin
  have hdata : (String.mk (joinChars sep (l.map String.data))).data
      = joinChars sep (l.map String.data) := rfl
  rw [hdata, splitChars_joinChars sep (l.map String.data) (by simpa using hne)
    (by intro g hg; obtain ⟨s, hs, rfl⟩ := List.mem_map.1 hg; exact h s hs)]
  have : ∀ xs : List String, (xs.map String.data).map String.mk = xs := by
    intro xs; induction xs with
    | nil => rfl
    | cons a t iht => simp [iht]
  exact this l

theorem not_mem_data_of_mem_jsSplit (sep : Char) (s x : String)
    (hx : x ∈ jsSplit sep s) : sep ∉ x.data := by
  unfold jsSplit at hx
  obtain ⟨g, hg, rfl⟩ := List.mem_map.1 hx
  exact not_mem_of_mem_splitChars sep s.data g hg

/-- Decoding the name synthesized with target mode dark yields dark, whenever
the original name decoded some mode (hence had at least two segments). -/
theorem detectCurrentMode_buildTargetName (nm mo : String)
    (h : detectCurrentMode nm = some mo) :
    detectCurrentMode (buildTargetName nm MODES_DARK) = some MODES_DARK := by
  rcases hs : jsSplit NAMING_SEPARATOR nm with _ | ⟨a, _ | ⟨b, rest⟩⟩
  · simp [detectCurrentMode, hs] at h
  · simp [detectCurrentMode, hs] at h
  · have hmem : ∀ x ∈ a :: MODES_DARK :: rest, NAMING_SEPARATOR ∉ x.data := by
      intro x hx
      rcases List.mem_cons.1 hx with rfl | hx2
      · exact not_mem_data_of_mem_jsSplit NAMING_SEPARATOR nm x
          (by rw [hs]; exact List.mem_cons_self x (b :: rest))
      · rcases List.mem_cons.1 hx2 with rfl | hx3
        · decide
        · exact not_mem_data_of_mem_jsSplit NAMING_SEPARATOR nm x
            (by rw [hs]; exact List.mem_cons_of_mem a (List.mem_cons_of_mem b hx3))
    have hj : jsSplit NAMING_SEPARATOR (jsJoin NAMING_SEPARATOR (a :: MODES_DARK :: rest))
        = a :: MODES_DARK :: rest := jsSplit_jsJoin NAMING_SEPARATOR _ (by simp) hmem
    simp only [buildTargetName, hs, detectCurrentMode, hj]
    decide


/-- Both class branches of switchLayerStyle compute the same decision tree
over the class-selected catalog. -/
theorem switchLayerStyle_eq (doc : Document) (layer : LayerState) (t : String)
    (hf : layer.fault ≠ some FaultSite.atStyle) :
    switchLayerStyle doc layer t =
      match layer.sharedStyle with
      | some currentName =>
        match detectCurrentMode currentName with
        | some currentMode =>
          if currentMode ≠ t then
            match (styleCatalog doc layer).find? (fun style => style == buildTargetName currentName t) with
            | some targetStyle => (layer.setSharedStyle (some targetStyle), ⟨1, 0⟩)
            | none => (layer, ⟨0, 1⟩)
          else (layer, ⟨0, 1⟩)
        | none => (layer, ⟨0, 1⟩)
      | none => (layer, ⟨0, 1⟩) := by
  by_cases hc : layer.cls = LayerClass.msTextLayer <;>
    simp [switchLayerStyle, styleCatalog, hf, hc]

theorem eq_of_find?_beq {l : List String} {nm v : String}
    (h : l.find? (fun s => s == nm) = some v) : v = nm := by
  have hp := List.find?_some h
  exact eq_of_beq hp

/-- Second application of the per-node switch to the state it produced:
everything is skipped and the previous tally collapses into skips. -/
theorem pcl_pass2 (doc : Document) (st : LayerState)
    (h1 : st.sharedStyle = none ∨ st.symbolMaster = none)
    (h2 : ∀ m, st.symbolMaster = some m →
      detectCurrentMode (buildTargetName m MODES_DARK) = some MODES_DARK)
    (h0 : st.fault = none) :
    processCurrentLayer doc (processCurrentLayer doc st MODES_DARK).1 MODES_DARK
      = ((processCurrentLayer doc st MODES_DARK).1,
        ⟨0, (processCurrentLayer doc st MODES_DARK).2.switched
            + (processCurrentLayer doc st MODES_DARK).2.skipped⟩) := by
  have hfS : st.fault ≠ some FaultSite.atStyle := by simp [h0]
  have hfY : st.fault ≠ some FaultSite.atSymbol := by simp [h0]
  have hfL : st.fault ≠ some FaultSite.atLog := by simp [h0]
  rcases hss : st.sharedStyle with _ | cur
  · -- no applied shared style: the style path records one skip, state unchanged
    have hstyle : switchLayerStyle doc st MODES_DARK = (st, ⟨0, 1⟩) := by
      rw [switchLayerStyle_eq doc st MODES_DARK hfS, hss]
    rcases hsm : st.symbolMaster with _ | m
    · by_cases hsym : isSymbolInstance st = true
      · have hssm : switchSymbolMode doc st MODES_DARK = (st, ⟨0, 0⟩) := by
          simp [switchSymbolMode, hfY, hsm]
        have hp : processCurrentLayer doc st MODES_DARK = (st, ⟨0, 1⟩) := by
          simp [processCurrentLayer, hfL, hstyle, hsym, hssm, Tally.add_def]
        rw [hp]
        simp [hp]
      · have hp : processCurrentLayer doc st MODES_DARK = (st, ⟨0, 1⟩) := by
          simp [processCurrentLayer, hfL, hstyle, hsym]
        rw [hp]
        simp [hp]
    · have hsym : isSymbolInstance st = true := by simp [isSymbolInstance, hsm]
      by_cases hdm : detectCurrentMode m = some MODES_DARK
      · have hssm : switchSymbolMode doc st MODES_DARK = (st, ⟨0, 1⟩) := by
          simp [switchSymbolMode, hfY, hsm, hdm]
        have hp : processCurrentLayer doc st MODES_DARK = (st, ⟨0, 2⟩) := by
          simp [processCurrentLayer, hfL, hstyle, hsym, hssm, Tally.add_def]
        rw [hp]
        simp [hp]
      · rcases hfind : findSymbolByName doc (buildTargetName m MODES_DARK) with _ | tgt
        · have hssm : switchSymbolMode doc st MODES_DARK = (st, ⟨0, 1⟩) := by
            simp [switchSymbolMode, hfY, hsm, hdm, hfind]
          have hp : processCurrentLayer doc st MODES_DARK = (st, ⟨0, 2⟩) := by
            simp [processCurrentLayer, hfL, hstyle, hsym, hssm, Tally.add_def]
          rw [hp]
          simp [hp]
        · have htgt : tgt = buildTargetName m MODES_DARK := by
            have := hfind
            unfold findSymbolByName at this
            exact eq_of_find?_beq this
          have hssm : switchSymbolMode doc st MODES_DARK
              = (st.setSymbolMaster (some tgt), ⟨1, 0⟩) := by
            simp [switchSymbolMode, hfY, hsm, hdm, hfind]
          have hp : processCurrentLayer doc st MODES_DARK
              = (st.setSymbolMaster (some tgt), ⟨1, 1⟩) := by
            simp [processCurrentLayer, hfL, hstyle, hsym, hssm, Tally.add_def]
          -- pass 2 on the updated state
          have hss1 : (st.setSymbolMaster (some tgt)).sharedStyle = none := by
            simp [LayerState.setSymbolMaster, hss]
          have hf1 : (st.setSymbolMaster (some tgt)).fault = none := by
            simp [LayerState.setSymbolMaster, h0]
          have hstyle1 : switchLayerStyle doc (st.setSymbolMaster (some tgt)) MODES_DARK
              = (st.setSymbolMaster (some tgt), ⟨0, 1⟩) := by
            rw [switchLayerStyle_eq doc _ MODES_DARK (by simp [hf1]), hss1]
          have hsym1 : isSymbolInstance (st.setSymbolMaster (some tgt)) = true := by
            simp [isSymbolInstance, LayerState.setSymbolMaster]
          have hdet1 : detectCurrentMode tgt = some MODES_DARK := by
            rw [htgt]; exact h2 m hsm
          have hssm1 : switchSymbolMode doc (st.setSymbolMaster (some tgt)) MODES_DARK
              = (st.setSymbolMaster (some tgt), ⟨0, 1⟩) := by
            simp [switchSymbolMode, LayerState.setSymbolMaster, hf1, hdet1]
          have hp2 : processCurrentLayer doc (st.setSymbolMaster (some tgt)) MODES_DARK
              = (st.setSymbolMaster (some tgt), ⟨0, 2⟩) := by
            simp [processCurrentLayer, hf1, hstyle1, hsym1, hssm1, Tally.add_def]
          rw [hp, hp2]
          simp [hp]
  · -- an applied shared style: the symbol reference is absent by hypothesis
    have hsm : st.symbolMaster = none := by
      rcases h1 with h1 | h1
      · rw [hss] at h1; cases h1
      · exact h1
    have hssm_any : ∀ s2 : LayerState, s2.fault = none → s2.symbolMaster = none →
        switchSymbolMode doc s2 MODES_DARK = (s2, ⟨0, 0⟩) := by
      intro s2 hf2 hm2
      simp [switchSymbolMode, hf2, hm2]
    rcases hdet : detectCurrentMode cur with _ | mo
    · have hstyle : switchLayerStyle doc st MODES_DARK = (st, ⟨0, 1⟩) := by
        rw [switchLayerStyle_eq doc st MODES_DARK hfS]
        simp [hss, hdet]
      by_cases hsym : isSymbolInstance st = true
      · have hp : processCurrentLayer doc st MODES_DARK = (st, ⟨0, 1⟩) := by
          simp [processCurrentLayer, hfL, hstyle, hsym, hssm_any st h0 hsm, Tally.add_def]
        rw [hp]
        simp [hp]
      · have hp : processCurrentLayer doc st MODES_DARK = (st, ⟨0, 1⟩) := by
          simp [processCurrentLayer, hfL, hstyle, hsym]
        rw [hp]
        simp [hp]
    · by_cases hmo : mo = MODES_DARK
      · have hstyle : switchLayerStyle doc st MODES_DARK = (st, ⟨0, 1⟩) := by
          rw [switchLayerStyle_eq doc st MODES_DARK hfS]
          simp [hss, hdet]
          simp [hmo]
        by_cases hsym : isSymbolInstance st = true
        · have hp : processCurrentLayer doc st MODES_DARK = (st, ⟨0, 1⟩) := by
            simp [processCurrentLayer, hfL, hstyle, hsym, hssm_any st h0 hsm, Tally.add_def]
          rw [hp]
          simp [hp]
        · have hp : processCurrentLayer doc st MODES_DARK = (st, ⟨0, 1⟩) := by
            simp [processCurrentLayer, hfL, hstyle, hsym]
          rw [hp]
          simp [hp]
      · rcases hfind : (styleCatalog doc st).find? (fun style => style == buildTargetName cur MODES_DARK) with _ | tgt
        · have hstyle : switchLayerStyle doc st MODES_DARK = (st, ⟨0, 1⟩) := by
            rw [switchLayerStyle_eq doc st MODES_DARK hfS]
            simp [hss, hdet]
            simp [hmo, hfind]
          by_cases hsym : isSymbolInstance st = true
          · have hp : processCurrentLayer doc st MODES_DARK = (st, ⟨0, 1⟩) := by
              simp [processCurrentLayer, hfL, hstyle, hsym, hssm_any st h0 hsm, Tally.add_def]
            rw [hp]
            simp [hp]
          · have hp : processCurrentLayer doc st MODES_DARK = (st, ⟨0, 1⟩) := by
              simp [processCurrentLayer, hfL, hstyle, hsym]
            rw [hp]
            simp [hp]
        · have htgt : tgt = buildTargetName cur MODES_DARK := eq_of_find?_beq hfind
          have hstyle : switchLayerStyle doc st MODES_DARK
              = (st.setSharedStyle (some tgt), ⟨1, 0⟩) := by
            rw [switchLayerStyle_eq doc st MODES_DARK hfS]
            simp [hss, hdet, hmo, hfind]
          have hp : processCurrentLayer doc st MODES_DARK
              = (st.setSharedStyle (some tgt), ⟨1, 0⟩) := by
            simp [processCurrentLayer, hfL, hstyle]
          -- pass 2 on the updated state
          have hf1 : (st.setSharedStyle (some tgt)).fault = none := by
            simp [LayerState.setSharedStyle, h0]
          have hsm1 : (st.setSharedStyle (some tgt)).symbolMaster = none := by
            simp [LayerState.setSharedStyle, hsm]
          have hdet1 : detectCurrentMode tgt = some MODES_DARK := by
            rw [htgt]; exact detectCurrentMode_buildTargetName cur mo hdet
          have hstyle1 : switchLayerStyle doc (st.setSharedStyle (some tgt)) MODES_DARK
              = (st.setSharedStyle (some tgt), ⟨0, 1⟩) := by
            rw [switchLayerStyle_eq doc _ MODES_DARK (by simp [hf1])]
            simp [LayerState.setSharedStyle, hdet1]
          have hp2 : processCurrentLayer doc (st.setSharedStyle (some tgt)) MODES_DARK
              = (st.setSharedStyle (some tgt), ⟨0, 1⟩) := by
            by_cases hsym1 : isSymbolInstance (st.setSharedStyle (some tgt)) = true
            · simp [processCurrentLayer, hf1, hstyle1, hsym1,
                hssm_any _ hf1 hsm1, Tally.add_def]
            · simp [processCurrentLayer, hf1, hstyle1, hsym1]
          rw [hp, hp2]
          simp [hp]

theorem switchLayerStyle_fault (doc : Document) (st : LayerState) (t : String) :
    (switchLayerStyle doc st t).1.fault = st.fault := by
  obtain ⟨nm, cls, ss, sm, f⟩ := st
  unfold switchLayerStyle
  try dsimp only
  by_cases hf : f = some FaultSite.atStyle
  · simp [hf]
  · rw [if_neg hf]
    by_cases hc : cls = LayerClass.msTextLayer
    · rw [if_pos hc]
      cases ss with
      | none => rfl
      | some cur =>
        try dsimp only
        cases detectCurrentMode cur with
        | none => rfl
        | some mo =>
          try dsimp only
          by_cases hmo : mo ≠ t
          · rw [if_pos hmo]
            try dsimp only
            cases List.find? (fun style => style == buildTargetName cur t)
                doc.sharedTextStyles with
            | none => rfl
            | some tgt => rfl
          · rw [if_neg hmo]
    · rw [if_neg hc]
      cases ss with
      | none => rfl
      | some cur =>
        try dsimp only
        cases detectCurrentMode cur with
        | none => rfl
        | some mo =>
          try dsimp only
          by_cases hmo : mo ≠ t
          · rw [if_pos hmo]
            try dsimp only
            cases List.find? (fun style => style == buildTargetName cur t)
                doc.sharedLayerStyles with
            | none => rfl
            | some tgt => rfl
          · rw [if_neg hmo]

theorem switchSymbolMode_fault (doc : Document) (st : LayerState) (t : String) :
    (switchSymbolMode doc st t).1.fault = st.fault := by
  obtain ⟨nm, cls, ss, sm, f⟩ := st
  unfold switchSymbolMode
  try dsimp only
  by_cases hf : f = some FaultSite.atSymbol
  · simp [hf]
  · rw [if_neg hf]
    cases sm with
    | none => rfl
    | some cur =>
      try dsimp only
      by_cases hd : detectCurrentMode cur = some t
      · rw [if_pos hd]
      · rw [if_neg hd]
        try dsimp only
        cases findSymbolByName doc (buildTargetName cur t) with
        | none => rfl
        | some tgt => rfl

theorem pcl_fault (doc : Document) (st : LayerState) (t : String) :
    (processCurrentLayer doc st t).1.fault = st.fault := by
  unfold processCurrentLayer
  by_cases hf : st.fault = some FaultSite.atLog
  · simp [hf]
  · rw [if_neg hf]
    try dsimp only
    by_cases h1 : (switchLayerStyle doc st t).2.switched = 0
    · rw [if_pos h1]
      by_cases h2 : isSymbolInstance (switchLayerStyle doc st t).1 = true
      · rw [if_pos h2]
        try dsimp only
        rw [switchSymbolMode_fault, switchLayerStyle_fault]
      · rw [if_neg h2]
        exact switchLayerStyle_fault doc st t
    · rw [if_neg h1]
      exact switchLayerStyle_fault doc st t

theorem pass2_aux : ∀ k : Nat,
    (∀ n : Node, sizeOf n ≤ k → OkTree n → ∀ doc : Document,
      processLayer doc MODES_DARK (processLayer doc MODES_DARK n).1
        = ((processLayer doc MODES_DARK n).1,
          ⟨0, (processLayer doc MODES_DARK n).2.switched
              + (processLayer doc MODES_DARK n).2.skipped⟩)) ∧
    (∀ l : List Node, sizeOf l ≤ k → OkForest l → ∀ doc : Document,
      processLayers doc MODES_DARK (processLayers doc MODES_DARK l).1
        = ((processLayers doc MODES_DARK l).1,
          ⟨0, (processLayers doc MODES_DARK l).2.switched
              + (processLayers doc MODES_DARK l).2.skipped⟩)) := by
  intro k
  induction k with
  | zero =>
    constructor
    · intro n hn
      exfalso
      obtain ⟨st, ch⟩ := n
      simp only [Node.mk.sizeOf_spec] at hn
      omega
    · intro l hl
      exfalso
      cases l <;> simp_all
  | succ k ih =>
    constructor
    · intro n hn hok doc
      obtain ⟨st, ch⟩ := n
      simp only [OkTree] at hok
      obtain ⟨h1, h2, h0, hch⟩ := hok
      have hsz : sizeOf ch ≤ k := by
        simp only [Node.mk.sizeOf_spec] at hn
        omega
      have hfault1 : (processCurrentLayer doc st MODES_DARK).1.fault = none := by
        rw [pcl_fault]; exact h0
      have hpcl := pcl_pass2 doc st h1 h2 h0
      have hforest := ih.2 ch hsz hch doc
      simp only [processLayer, h0, hfault1, reduceCtorEq, if_neg, ite_false]
      simp only [Node.mk.injEq, Prod.mk.injEq] at hpcl hforest ⊢
      simp [hpcl, hforest, Tally.add_def, Tally.mk.injEq]
      omega
    · intro l hl hok doc
      cases l with
      | nil => simp [processLayers]
      | cons n ns =>
        simp only [OkForest] at hok
        obtain ⟨hokn, hokns⟩ := hok
        have hszn : sizeOf n ≤ k := by
          simp only [List.cons.sizeOf_spec] at hl
          omega
        have hszns : sizeOf ns ≤ k := by
          simp only [List.cons.sizeOf_spec] at hl
          omega
        have hn := ih.1 n hszn hokn doc
        have hns := ih.2 ns hszns hokns doc
        simp only [processLayers]
        simp [hn, hns, Tally.add_def, Tally.mk.injEq]
        omega

theorem switchLayerStyle_tally (doc : Document) (st : LayerState) (t : String) :
    (switchLayerStyle doc st t).2 = ⟨1, 0⟩ ∨ (switchLayerStyle doc st t).2 = ⟨0, 1⟩ := by
  by_cases hf : st.fault = some FaultSite.atStyle
  · right; simp [switchLayerStyle, hf]
  · rw [switchLayerStyle_eq doc st t hf]
    rcases hss : st.sharedStyle with _ | cur
    · right; simp [hss]
    · simp only [hss]
      rcases hdet : detectCurrentMode cur with _ | mo
      · right; simp [hdet]
      · simp only [hdet]
        by_cases hmo : mo ≠ t
        · simp only [if_pos hmo]
          rcases hfind : (styleCatalog doc st).find?
              (fun style => style == buildTargetName cur t) with _ | tgt
          · right; simp [hfind]
          · left; simp [hfind]
        · right; simp [if_neg hmo]

theorem switchSymbolMode_tally (doc : Document) (st : LayerState) (t : String) :
    (switchSymbolMode doc st t).2 = ⟨0, 0⟩ ∨ (switchSymbolMode doc st t).2 = ⟨0, 1⟩ ∨
      (switchSymbolMode doc st t).2 = ⟨1, 0⟩ := by
  by_cases hf : st.fault = some FaultSite.atSymbol
  · right; left; simp [switchSymbolMode, hf]
  · rcases hsm : st.symbolMaster with _ | cur
    · left; simp [switchSymbolMode, hf, hsm]
    · by_cases hd : detectCurrentMode cur = some t
      · right; left; simp [switchSymbolMode, hf, hsm, hd]
      · rcases hfind : findSymbolByName doc (buildTargetName cur t) with _ | tgt
        · right; left; simp [switchSymbolMode, hf, hsm, hd, hfind]
        · right; right; simp [switchSymbolMode, hf, hsm, hd, hfind]

theorem jsSplit_legacy (comp mode variant : String)
    (hc : NAMING_SEPARATOR ∉ comp.data) (hm : NAMING_SEPARATOR ∉ mode.data)
    (hv : NAMING_SEPARATOR ∉ variant.data) :
    jsSplit NAMING_SEPARATOR (comp ++ " / " ++ mode ++ " / " ++ variant)
      = [comp ++ " ", " " ++ mode ++ " ", " " ++ variant] := by
  unfold jsSplit
  have hdata : (comp ++ " / " ++ mode ++ " / " ++ variant).data
      = (comp.data ++ [' ']) ++ NAMING_SEPARATOR ::
        ((' ' :: mode.data ++ [' ']) ++ NAMING_SEPARATOR :: (' ' :: variant.data)) := by
    show (((comp.data ++ [' ', NAMING_SEPARATOR, ' ']) ++ mode.data)
        ++ [' ', NAMING_SEPARATOR, ' ']) ++ variant.data = _
    simp [List.append_assoc]
  rw [hdata, splitChars_append_sep NAMING_SEPARATOR _ _
      (by simp [hc]; decide),
    splitChars_append_sep NAMING_SEPARATOR _ _
      (by simp [hm]; decide),
    splitChars_of_not_mem NAMING_SEPARATOR _
      (by simp [hv]; decide)]
  rfl

/-- C1 (amended): for a selection of exactly one SymbolInstance whose master is
named button/light/primary, with button/dark/primary in the symbol catalog,
switchSelectionTo(dark) repoints the instance's symbolRef to the dark master,
but the report is "Switched to Dark Mode: 1 changed, 1 skipped": the style
path counts the instance's missing shared style as one skip before the symbol
path switches it (tally per node is switched 1, skipped 1). -/
theorem claim_C1 :
    switchToDark ⟨[], [], ["button/light/primary", "button/dark/primary"]⟩
      [Node.mk ⟨"button", LayerClass.msSymbolInstance, none, some "button/light/primary", none⟩ []]
    = ([Node.mk ⟨"button", LayerClass.msSymbolInstance, none, some "button/dark/primary", none⟩ []],
      "Switched to Dark Mode: 1 changed, 1 skipped") := by
  have h1 : detectCurrentMode "button/light/primary" = some "light" := by decide
  have h2 : buildTargetName "button/light/primary" "dark" = "button/dark/primary" := by decide
  simp [switchToDark, switchMode, processLayers, processLayer, processCurrentLayer,
    switchLayerStyle, switchSymbolMode, isSymbolInstance, findSymbolByName,
    LayerState.setSymbolMaster, Tally.add_def, MODES_DARK, MODES_LIGHT, h1, h2,
    List.find?, jsCapitalize]
  rfl

/-- C1 counterexample: at the exact Scenario A input, the report string is not
"Switched to Dark Mode: 1 changed, 0 skipped" as the claim states. -/
theorem claim_C1_counterexample :
    (switchToDark ⟨[], [], ["button/light/primary", "button/dark/primary"]⟩
      [Node.mk ⟨"button", LayerClass.msSymbolInstance, none, some "button/light/primary", none⟩ []]).2
    ≠ "Switched to Dark Mode: 1 changed, 0 skipped" := by
  have h1 : detectCurrentMode "button/light/primary" = some "light" := by decide
  have h2 : buildTargetName "button/light/primary" "dark" = "button/dark/primary" := by decide
  simp [switchToDark, switchMode, processLayers, processLayer, processCurrentLayer,
    switchLayerStyle, switchSymbolMode, isSymbolInstance, findSymbolByName,
    LayerState.setSymbolMaster, Tally.add_def, MODES_DARK, MODES_LIGHT, h1, h2,
    List.find?, jsCapitalize]
  decide

/-- C2 (amended): a node with no applied shared style that is not a symbol
instance (and no injected fault) contributes the tally switched 0, skipped 1 —
not 0,0 as claimed: the style path of switchLayerStyle records a skip whenever
no shared style is applied.  Its descendants contribute additionally. -/
theorem claim_C2 (doc : Document) (targetMode : String) (st : LayerState) (ch : List Node)
    (h2 : st.sharedStyle = none) (h3 : isSymbolInstance st = false)
    (h4 : st.fault = none) :
    processCurrentLayer doc st targetMode = (st, ⟨0, 1⟩) ∧
    processLayer doc targetMode (Node.mk st ch)
      = (Node.mk st (processLayers doc targetMode ch).1,
        ⟨0, 1⟩ + (processLayers doc targetMode ch).2) := by
  have hstyle : switchLayerStyle doc st targetMode = (st, ⟨0, 1⟩) := by
    rw [switchLayerStyle_eq doc st targetMode (by simp [h4])]
    simp [h2]
  have hp : processCurrentLayer doc st targetMode = (st, ⟨0, 1⟩) := by
    simp [processCurrentLayer, h4, hstyle, h3]
  refine ⟨hp, ?_⟩
  simp [processLayer, h4, hp]

/-- C2 witness: the amended statement applied to a concrete plain container
with empty document catalogs. -/
theorem claim_C2_witness :
    processCurrentLayer ⟨[], [], []⟩ ⟨"Group", LayerClass.msOther, none, none, none⟩ "dark"
      = (⟨"Group", LayerClass.msOther, none, none, none⟩, ⟨0, 1⟩) ∧
    processLayer ⟨[], [], []⟩ "dark"
        (Node.mk ⟨"Group", LayerClass.msOther, none, none, none⟩ [])
      = (Node.mk ⟨"Group", LayerClass.msOther, none, none, none⟩ [], ⟨0, 1⟩) := by
  have h := claim_C2 ⟨[], [], []⟩ "dark" ⟨"Group", LayerClass.msOther, none, none, none⟩ []
    rfl rfl rfl
  exact ⟨h.1, by simpa [processLayers, Tally.add_def] using h.2⟩

/-- C2 counterexample: a plain container (no shared style, not a symbol
instance) gets per-node tally switched 0, skipped 1, refuting the claimed
0,0 contribution. -/
theorem claim_C2_counterexample :
    (processCurrentLayer ⟨[], [], []⟩ ⟨"Group", LayerClass.msOther, none, none, none⟩ "dark").2
      ≠ ⟨0, 0⟩ := by decide

/-- C3: evaluation of the toggle direction inference at the failing input.  A
selection whose first node carries a detectable dark mode makes
findModeInSelection return dark, yet toggleTargetMode still returns dark (the
source line 63-64 ternary has MODES.DARK in both branches), not light as the
claim requires; dark and light are distinct. -/
theorem claim_C3 :
    findModeInSelection
        [Node.mk ⟨"body", LayerClass.msTextLayer, some "text/dark/body", none, none⟩ []]
      = some MODES_DARK ∧
    toggleTargetMode
        [Node.mk ⟨"body", LayerClass.msTextLayer, some "text/dark/body", none, none⟩ []]
      = MODES_DARK ∧
    MODES_DARK ≠ MODES_LIGHT := by
  have hd : detectCurrentMode "text/dark/body" = some MODES_DARK := by decide
  have h1 : findModeInSelection
      [Node.mk ⟨"body", LayerClass.msTextLayer, some "text/dark/body", none, none⟩ []]
      = some MODES_DARK := by
    simp [findModeInSelection, findModeInLayer, hd]
  refine ⟨h1, ?_, by decide⟩
  simp [toggleTargetMode, h1]

/-- C4 (amended): on an empty selection switchMode (hence switchSelectionTo for
both modes) short-circuits with no mutation and reports exactly
"Please select layers to switch modes", while toggleSelection short-circuits
with no mutation but reports "Please select layers to toggle". -/
theorem claim_C4 (doc : Document) (targetMode : String) :
    switchMode doc [] targetMode = ([], "Please select layers to switch modes") ∧
    switchToDark doc [] = ([], "Please select layers to switch modes") ∧
    switchToLight doc [] = ([], "Please select layers to switch modes") ∧
    toggleMode doc [] = ([], "Please select layers to toggle") :=
  ⟨rfl, rfl, rfl, rfl⟩

/-- C4 counterexample: the toggle entry point's empty-selection report is
"Please select layers to toggle", not the fixed string the claim asserts for
every selection-taking entry point. -/
theorem claim_C4_counterexample :
    (toggleMode ⟨[], [], []⟩ []).2 = "Please select layers to toggle" ∧
    (toggleMode ⟨[], [], []⟩ []).2 ≠ "Please select layers to switch modes" :=
  ⟨rfl, by decide⟩

/-- C5 (amended): a fault is always caught at the per-node scope and the walk
continues — but it is recorded as a skip only when it strikes inside the
style- or symbol-switch helpers.  A fault at the per-node logging step is
caught in processCurrentLayer's handler, which leaves the zero tally
(switched 0, skipped 0: no skip is recorded) while the node's descendants and
the remaining nodes are still processed. -/
theorem claim_C5 :
    (∀ (doc : Document) (targetMode : String) (st : LayerState) (ch : List Node),
      st.fault = some FaultSite.atLog →
      processLayer doc targetMode (Node.mk st ch)
        = (Node.mk st (processLayers doc targetMode ch).1,
          (⟨0, 0⟩ : Tally) + (processLayers doc targetMode ch).2)) ∧
    (∀ (doc : Document) (targetMode : String) (st : LayerState),
      st.fault = some FaultSite.atStyle →
      (switchLayerStyle doc st targetMode).2 = ⟨0, 1⟩) ∧
    (∀ (doc : Document) (targetMode : String) (st : LayerState),
      st.fault = some FaultSite.atSymbol →
      (switchSymbolMode doc st targetMode).2 = ⟨0, 1⟩) := by
  refine ⟨?_, ?_, ?_⟩
  · intro doc t st ch h
    have hp : processCurrentLayer doc st t = (st, ⟨0, 0⟩) := by
      simp [processCurrentLayer, h]
    simp [processLayer, hp, h]
  · intro doc t st h
    simp [switchLayerStyle, h]
  · intro doc t st h
    simp [switchSymbolMode, h]

/-- C5 witness: the amended statement applied to concrete faulting nodes, one
per fault site. -/
theorem claim_C5_witness :
    processLayer ⟨[], [], []⟩ "dark"
        (Node.mk ⟨"g", LayerClass.msOther, none, none, some FaultSite.atLog⟩ [])
      = (Node.mk ⟨"g", LayerClass.msOther, none, none, some FaultSite.atLog⟩ [], ⟨0, 0⟩) ∧
    (switchLayerStyle ⟨[], [], []⟩
        ⟨"s", LayerClass.msOther, some "a/light/b", none, some FaultSite.atStyle⟩ "dark").2
      = ⟨0, 1⟩ ∧
    (switchSymbolMode ⟨[], [], []⟩
        ⟨"i", LayerClass.msSymbolInstance, none, some "a/light/b", some FaultSite.atSymbol⟩ "dark").2
      = ⟨0, 1⟩ := by
  refine ⟨?_, claim_C5.2.1 ⟨[], [], []⟩ "dark" _ rfl, claim_C5.2.2 ⟨[], [], []⟩ "dark" _ rfl⟩
  have h := claim_C5.1 ⟨[], [], []⟩ "dark" ⟨"g", LayerClass.msOther, none, none, some FaultSite.atLog⟩ [] rfl
  simpa [processLayers, Tally.add_def] using h

/-- C5 counterexample: a node whose name accessor faults at the logging step
(a collaborator call failing while processing the node) yields tally 0,0 — the
skip the claim requires is not recorded — although without the fault the same
node would have been switched (tally 1,0). -/
theorem claim_C5_counterexample :
    (processLayer ⟨[], ["x/dark/y"], []⟩ "dark"
      (Node.mk ⟨"x", LayerClass.msOther, some "x/light/y", none, some FaultSite.atLog⟩ [])).2
      = ⟨0, 0⟩ ∧
    (processLayer ⟨[], ["x/dark/y"], []⟩ "dark"
      (Node.mk ⟨"x", LayerClass.msOther, some "x/light/y", none, none⟩ [])).2
      = ⟨1, 0⟩ ∧
    (⟨0, 0⟩ : Tally) ≠ ⟨0, 1⟩ := by
  have hd : detectCurrentMode "x/light/y" = some "light" := by decide
  have hb : buildTargetName "x/light/y" "dark" = "x/dark/y" := by decide
  refine ⟨?_, ?_, by decide⟩
  · simp [processLayer, processLayers, processCurrentLayer, Tally.add_def]
  · simp [processLayer, processLayers, processCurrentLayer, switchLayerStyle,
      switchSymbolMode, isSymbolInstance, hd, hb, MODES_DARK, MODES_LIGHT,
      List.find?, LayerState.setSharedStyle, Tally.add_def]

/-- C6 (amended): the per-node switch returns switched at most 1 (at most one
switch per node, first success wins) and skipped at most 2 — not at most 1 as
claimed: both the style path and the symbol path can each record a skip on the
same node. -/
theorem claim_C6 (doc : Document) (st : LayerState) (targetMode : String) :
    (processCurrentLayer doc st targetMode).2.switched ≤ 1 ∧
    (processCurrentLayer doc st targetMode).2.skipped ≤ 2 := by
  unfold processCurrentLayer
  by_cases hf : st.fault = some FaultSite.atLog
  · simp [hf]
  · rw [if_neg hf]
    dsimp only
    by_cases h1 : (switchLayerStyle doc st targetMode).2.switched = 0
    · rw [if_pos h1]
      by_cases h2 : isSymbolInstance (switchLayerStyle doc st targetMode).1 = true
      · rw [if_pos h2]
        dsimp only
        rcases switchLayerStyle_tally doc st targetMode with hA | hA <;>
          rcases switchSymbolMode_tally doc (switchLayerStyle doc st targetMode).1 targetMode
            with hB | hB | hB <;>
          simp_all [Tally.add_def]
      · rw [if_neg h2]
        rcases switchLayerStyle_tally doc st targetMode with hA | hA <;> simp [hA]
    · rw [if_neg h1]
      rcases switchLayerStyle_tally doc st targetMode with hA | hA <;> simp [hA]

/-- C6 counterexample: a symbol instance with no shared style whose master is
already dark-named records one skip in the style path and another in the
symbol path: skipped is 2, which is neither 0 nor 1. -/
theorem claim_C6_counterexample :
    (processCurrentLayer ⟨[], [], ["button/dark/primary"]⟩
      ⟨"button", LayerClass.msSymbolInstance, none, some "button/dark/primary", none⟩
      MODES_DARK).2.skipped = 2 ∧
    ¬((processCurrentLayer ⟨[], [], ["button/dark/primary"]⟩
      ⟨"button", LayerClass.msSymbolInstance, none, some "button/dark/primary", none⟩
      MODES_DARK).2.skipped = 0 ∨
      (processCurrentLayer ⟨[], [], ["button/dark/primary"]⟩
      ⟨"button", LayerClass.msSymbolInstance, none, some "button/dark/primary", none⟩
      MODES_DARK).2.skipped = 1) := by decide

/-- C7 (amended): applying the dark switch twice to the same selection yields
switched 0 on the second pass, and skipped equal to the first pass's switched
plus skipped — every node switched on pass one is detected as already dark and
skipped on pass two, and every pass-one skip repeats — provided no node bears
both a shared style and a symbol reference and every referenced symbol-master
name round-trips through the codec (OkForest). -/
theorem claim_C7 (doc : Document) (sel : List Node) (h : OkForest sel) :
    processLayers doc MODES_DARK (processLayers doc MODES_DARK sel).1
      = ((processLayers doc MODES_DARK sel).1,
        ⟨0, (processLayers doc MODES_DARK sel).2.switched
            + (processLayers doc MODES_DARK sel).2.skipped⟩) :=
  (pass2_aux (sizeOf sel)).2 sel le_rfl h doc

/-- C7 witness: the amended statement applied to the concrete one-instance
selection of Scenario A, whose hypothesis holds by computation. -/
theorem claim_C7_witness :
    OkForest [Node.mk ⟨"button", LayerClass.msSymbolInstance, none,
        some "button/light/primary", none⟩ []] ∧
    processLayers ⟨[], [], ["button/light/primary", "button/dark/primary"]⟩ MODES_DARK
        (processLayers ⟨[], [], ["button/light/primary", "button/dark/primary"]⟩ MODES_DARK
          [Node.mk ⟨"button", LayerClass.msSymbolInstance, none,
            some "button/light/primary", none⟩ []]).1
      = ((processLayers ⟨[], [], ["button/light/primary", "button/dark/primary"]⟩ MODES_DARK
          [Node.mk ⟨"button", LayerClass.msSymbolInstance, none,
            some "button/light/primary", none⟩ []]).1,
        ⟨0, (processLayers ⟨[], [], ["button/light/primary", "button/dark/primary"]⟩ MODES_DARK
          [Node.mk ⟨"button", LayerClass.msSymbolInstance, none,
            some "button/light/primary", none⟩ []]).2.switched
            + (processLayers ⟨[], [], ["button/light/primary", "button/dark/primary"]⟩ MODES_DARK
          [Node.mk ⟨"button", LayerClass.msSymbolInstance, none,
            some "button/light/primary", none⟩ []]).2.skipped⟩) := by
  have hok : OkForest [Node.mk ⟨"button", LayerClass.msSymbolInstance, none,
      some "button/light/primary", none⟩ []] := by
    simp [OkForest, OkTree]
    decide
  exact ⟨hok, claim_C7 _ _ hok⟩

/-- C7 counterexample: for a selection with one text layer already in dark
mode, the first pass switches nothing (so the claimed N is 0), yet the second
pass reports 1 skipped, not N = 0: skips repeat on the second pass. -/
theorem claim_C7_counterexample :
    (processLayers ⟨["text/dark/body"], [], []⟩ MODES_DARK
        (processLayers ⟨["text/dark/body"], [], []⟩ MODES_DARK
          [Node.mk ⟨"body", LayerClass.msTextLayer, some "text/dark/body", none, none⟩ []]).1).2.skipped
      ≠ (processLayers ⟨["text/dark/body"], [], []⟩ MODES_DARK
          [Node.mk ⟨"body", LayerClass.msTextLayer, some "text/dark/body", none, none⟩ []]).2.switched := by
  have hd : detectCurrentMode "text/dark/body" = some MODES_DARK := by decide
  simp [processLayers, processLayer, processCurrentLayer, switchLayerStyle,
    switchSymbolMode, isSymbolInstance, hd, Tally.add_def]

/-- C8: decode equals the spec-worded contract decodeSpecMode on every name —
a mode is produced iff the split has a second segment whose lower-cased and
trimmed form is light or dark, with no error for malformed names — and the two
concrete examples evaluate as the claim states. -/
theorem claim_C8 :
    (∀ name : String, detectCurrentMode name = decodeSpecMode name) ∧
    detectCurrentMode "card / LIGHT / default" = some "light" ∧
    detectCurrentMode "card-light-default" = none := by
  refine ⟨fun name => ?_, by decide, by decide⟩
  rcases hs : jsSplit NAMING_SEPARATOR name with _ | ⟨a, _ | ⟨b, rest⟩⟩ <;>
    simp [detectCurrentMode, decodeSpecMode, hs]

/-- C9: encode equals the spec-worded contract encodeSpec on every name and
target mode — with at least two segments the second segment is replaced
verbatim and the segments rejoined with the same separator, otherwise the name
is returned unchanged — and the two concrete examples evaluate as the claim
states. -/
theorem claim_C9 :
    (∀ name targetMode : String, buildTargetName name targetMode = encodeSpec name targetMode) ∧
    buildTargetName "button/light/primary" "dark" = "button/dark/primary" ∧
    buildTargetName "no-slash-name" "dark" = "no-slash-name" := by
  refine ⟨fun name t => ?_, by decide, by decide⟩
  rcases hs : jsSplit NAMING_SEPARATOR name with _ | ⟨a, _ | ⟨b, rest⟩⟩ <;>
    simp [buildTargetName, encodeSpec, hs]

/-- C10: for a legacy space-slash-space name (second slash-delimited segment
" mode ", which still decodes thanks to trimming), encode replaces the second
segment verbatim, dropping the surrounding spaces: the result is
comp followed by " /t/ " followed by variant, and it differs from every name
written in the legacy convention, so the synthesized target can never match a
catalog entry named that way. -/
theorem claim_C10 (comp mode variant t : String)
    (hc : NAMING_SEPARATOR ∉ comp.data) (hm : NAMING_SEPARATOR ∉ mode.data)
    (hv : NAMING_SEPARATOR ∉ variant.data)
    (hmode : jsTrim (jsToLower (" " ++ mode ++ " ")) = MODES_LIGHT ∨
      jsTrim (jsToLower (" " ++ mode ++ " ")) = MODES_DARK)
    (ht : t = MODES_LIGHT ∨ t = MODES_DARK) :
    detectCurrentMode (comp ++ " / " ++ mode ++ " / " ++ variant)
      = some (jsTrim (jsToLower (" " ++ mode ++ " "))) ∧
    buildTargetName (comp ++ " / " ++ mode ++ " / " ++ variant) t
      = comp ++ " /" ++ t ++ "/ " ++ variant ∧
    (∀ c m v : String, NAMING_SEPARATOR ∉ c.data → NAMING_SEPARATOR ∉ m.data →
      NAMING_SEPARATOR ∉ v.data →
      buildTargetName (comp ++ " / " ++ mode ++ " / " ++ variant) t
        ≠ c ++ " / " ++ m ++ " / " ++ v) := by
  have hsep_t : NAMING_SEPARATOR ∉ t.data := by
    rcases ht with rfl | rfl <;> decide
  have hsplit := jsSplit_legacy comp mode variant hc hm hv
  have hbuild : buildTargetName (comp ++ " / " ++ mode ++ " / " ++ variant) t
      = jsJoin NAMING_SEPARATOR [comp ++ " ", t, " " ++ variant] := by
    simp only [buildTargetName, hsplit]
  have hbuild_split : jsSplit NAMING_SEPARATOR
      (buildTargetName (comp ++ " / " ++ mode ++ " / " ++ variant) t)
      = [comp ++ " ", t, " " ++ variant] := by
    rw [hbuild]
    refine jsSplit_jsJoin NAMING_SEPARATOR _ (by simp) ?_
    intro s hs
    rcases List.mem_cons.1 hs with rfl | hs
    · show NAMING_SEPARATOR ∉ comp.data ++ [' ']
      simp [hc]; decide
    · rcases List.mem_cons.1 hs with rfl | hs
      · exact hsep_t
      · rcases List.mem_cons.1 hs with rfl | hs
        · show NAMING_SEPARATOR ∉ ' ' :: variant.data
          simp [hv]; decide
        · cases hs
  refine ⟨?_, ?_, ?_⟩
  · simp only [detectCurrentMode, hsplit]
    rw [if_pos hmode]
  · rw [hbuild]
    apply String.ext
    show (comp.data ++ [' ']) ++ NAMING_SEPARATOR :: (t.data ++ NAMING_SEPARATOR :: (' ' :: variant.data))
      = ((((comp.data ++ [' ', NAMING_SEPARATOR]) ++ t.data) ++ [NAMING_SEPARATOR, ' ']) ++ variant.data)
    simp [List.append_assoc]
  · intro c m v hc' hm' hv' heq
    have hsp := congrArg (jsSplit NAMING_SEPARATOR) heq
    rw [hbuild_split, jsSplit_legacy c m v hc' hm' hv'] at hsp
    have h2nd : t = " " ++ m ++ " " := by
      have h := congrArg (fun l : List String => l[1]?) hsp
      simpa using h
    have hdat := congrArg String.data h2nd
    rcases ht with rfl | rfl
    · have hdat2 : ('l' :: "ight".data : List Char) = ' ' :: (m.data ++ [' ']) := hdat
      injection hdat2 with hx hy
      exact absurd hx (by decide)
    · have hdat2 : ('d' :: "ark".data : List Char) = ' ' :: (m.data ++ [' ']) := hdat
      injection hdat2 with hx hy
      exact absurd hx (by decide)

/-- C10 witness: the statement applied at the concrete legacy name
"card / LIGHT / default" with target dark. -/
theorem claim_C10_witness :
    detectCurrentMode "card / LIGHT / default" = some "light" ∧
    buildTargetName "card / LIGHT / default" "dark" = "card /dark/ default" ∧
    buildTargetName "card / LIGHT / default" "dark" ≠ "card / dark / default" := by
  have h := claim_C10 "card" "LIGHT" "default" "dark"
    (by decide) (by decide) (by decide) (Or.inl (by decide)) (Or.inr rfl)
  refine ⟨?_, ?_, ?_⟩
  · have e1 : ("card" : String) ++ " / " ++ "LIGHT" ++ " / " ++ "default"
        = "card / LIGHT / default" := by decide
    have e2 : jsTrim (jsToLower ((" " : String) ++ "LIGHT" ++ " ")) = "light" := by decide
    rw [← e1, h.1, e2]
  · have e1 : ("card" : String) ++ " / " ++ "LIGHT" ++ " / " ++ "default"
        = "card / LIGHT / default" := by decide
    have e3 : ("card" : String) ++ " /" ++ "dark" ++ "/ " ++ "default"
        = "card /dark/ default" := by decide
    rw [← e1, h.2.1, e3]
  · have e1 : ("card" : String) ++ " / " ++ "LIGHT" ++ " / " ++ "default"
        = "card / LIGHT / default" := by decide
    have e4 : ("card" : String) ++ " / " ++ "dark" ++ " / " ++ "default"
        = "card / dark / default" := by decide
    rw [← e1, ← e4]
    exact h.2.2 "card" "dark" "default" (by decide) (by decide) (by decide)

end Refract
